import Mathlib

/-!
# Battery Cell Management App — verification of the specification

A shallow embedding of `battery_cell_app.py` (a Streamlit dashboard for
battery-cell and cycling-task bookkeeping).  Python strings are modelled as
`List Char`, Python floats as `ℚ`, Python dicts as insertion-ordered
association lists.  Every definition below is translated from the source
file; theorems settle the specification's claims against it.
-/

/-! ## ASCII character helpers (models of Python `str` methods) -/

/-- The ASCII whitespace characters removed by Python's `str.strip()`. -/
def isPySpace (c : Char) : Bool :=
  c == ' ' || c == '\t' || c == '\n' || c == '\r' || c == '\x0b' || c == '\x0c'

/-- A decimal digit `0`-`9` (the class `[0-9]`). -/
def isDigit (c : Char) : Bool :=
  c == '0' || c == '1' || c == '2' || c == '3' || c == '4' ||
  c == '5' || c == '6' || c == '7' || c == '8' || c == '9'

/-- ASCII uppercasing of one character, as Python's `str.upper()` does on
ASCII input. -/
def pyToUpper (c : Char) : Char :=
  if 'a' ≤ c ∧ c ≤ 'z' then Char.ofNat (c.toNat - 32) else c

/-- ASCII lowercasing of one character, as Python's `str.lower()` does on
ASCII input. -/
def pyToLower (c : Char) : Char :=
  if 'A' ≤ c ∧ c ≤ 'Z' then Char.ofNat (c.toNat + 32) else c

/-- Python `str.strip()`: drop leading and trailing whitespace. -/
def pyStrip (s : List Char) : List Char :=
  ((s.dropWhile isPySpace).reverse.dropWhile isPySpace).reverse

/-- Python `str.upper()` (ASCII fragment). -/
def pyUpper (s : List Char) : List Char := s.map pyToUpper

/-- Python `str.lower()` (ASCII fragment). -/
def pyLower (s : List Char) : List Char := s.map pyToLower

/-- Python `str.endswith(c)` for a one-character suffix. -/
def endsWithChar (s : List Char) (c : Char) : Bool :=
  match s.getLast? with
  | some d => d == c
  | none => false

/-! ## Python `float()` string parsing

`validate_cc_cp_input` calls `float(...)` on the numeric prefix; the model
below follows CPython's accepted grammar for `float` applied to a string:
optional surrounding whitespace, an optional sign, then either an
infinity/nan keyword (case-insensitive) or a decimal number with optional
fraction, optional exponent, and underscores allowed between digits. -/

/-- Consume `(["_"] digit)*`, underscores only between digits (fuel-based
for kernel reducibility; one character consumed per unit of fuel suffices). -/
def chompDigitsF : Nat → List Char → List Char
  | 0, l => l
  | _ + 1, [] => []
  | fuel + 1, c :: rest =>
    if isDigit c then chompDigitsF fuel rest
    else if c == '_' then
      match rest with
      | d :: rest2 => if isDigit d then chompDigitsF fuel rest2 else c :: rest
      | [] => [c]
    else c :: rest

/-- Consume a maximal digit run (with medial underscores). -/
def chompDigits (l : List Char) : List Char := chompDigitsF l.length l

/-- Consume a `digitpart` (at least one leading digit); `none` when the
input does not start with a digit. -/
def chompDigitpart : List Char → Option (List Char)
  | c :: rest => if isDigit c then some (chompDigits rest) else none
  | [] => none

/-- Consume an optional leading sign. -/
def chompSign : List Char → List Char
  | c :: rest => if c == '+' || c == '-' then rest else c :: rest
  | [] => []

/-- Case-insensitive character comparison (for `inf`/`nan` keywords). -/
def ciEqChar (a b : Char) : Bool := pyToLower a == pyToLower b

/-- Case-insensitive equality with a keyword. -/
def ciIs : List Char → List Char → Bool
  | [], [] => true
  | a :: as_, b :: bs => ciEqChar a b && ciIs as_ bs
  | _, _ => false

/-- Consume an optional `digitpart` and report whether one was present. -/
def chompOptDigitpart (s : List Char) : Bool × List Char :=
  match chompDigitpart s with
  | some r => (true, r)
  | none => (false, s)

/-- Consume `[digitpart] ["." [digitpart]]` requiring at least one digit. -/
def chompFloatBody (s : List Char) : Option (List Char) :=
  let p := chompOptDigitpart s
  match p.2 with
  | '.' :: r2 =>
    let p2 := chompOptDigitpart r2
    if p.1 || p2.1 then some p2.2 else none
  | _ => if p.1 then some p.2 else none

/-- Consume an optional exponent `("e"|"E") [sign] digitpart`. -/
def chompExp : List Char → Option (List Char)
  | c :: rest =>
    if c == 'e' || c == 'E' then
      match chompDigitpart (chompSign rest) with
      | some r2 => some r2
      | none => none
    else some (c :: rest)
  | [] => some []

/-- Does Python's `float()` accept this string (i.e. not raise
`ValueError`)? -/
def pyFloatParses (s : List Char) : Bool :=
  let t := chompSign (pyStrip s)
  if ciIs t ['i', 'n', 'f'] || ciIs t ['i', 'n', 'f', 'i', 'n', 'i', 't', 'y'] ||
     ciIs t ['n', 'a', 'n'] then true
  else
    match chompFloatBody t with
    | some r =>
      match chompExp r with
      | some [] => true
      | _ => false
    | none => false

/-! ## The CC/CP input validator (source lines 44-57) -/

/-- The distinct message strings returned by `validate_cc_cp_input`.
`emptyInput` is the text "Input cannot be empty"; `validFormat` is
"Valid format"; `badNumber` is "Invalid number format"; `badSuffix` is
the must-end-with-A-or-W message.  The spec names the failure kinds
`EmptyInput`, `BadNumber` and `BadSuffix` respectively. -/
inductive ValidateMsg where
  | emptyInput
  | validFormat
  | badNumber
  | badSuffix
deriving DecidableEq

/-- Model of `validate_cc_cp_input(input_str)`: reject the empty string, strip and
uppercase a local copy, require an `A`/`W` suffix, and require the prefix
before the suffix to parse as a Python float. -/
def validate_cc_cp_input (input_str : List Char) : Bool × ValidateMsg :=
  if input_str.isEmpty then (false, ValidateMsg.emptyInput)
  else
    let s := pyUpper (pyStrip input_str)
    if endsWithChar s 'A' || endsWithChar s 'W' then
      if pyFloatParses s.dropLast then (true, ValidateMsg.validFormat)
      else (false, ValidateMsg.badNumber)
    else (false, ValidateMsg.badSuffix)

/-- One of the four characters `A`, `W`, `a`, `w`. -/
def isAorW (c : Char) : Bool := c == 'A' || c == 'W' || c == 'a' || c == 'w'

/-- The language of the regex from the spec,
`^[0-9]+(\.[0-9]+)?[AW]$` case-insensitive: one or more digits, an
optional dot followed by one or more digits, then `A` or `W` in either
case.  (Spec-side definition, used to compare the spec's claim against
`validate_cc_cp_input`.) -/
def matchesCcCpRegex (s : List Char) : Bool :=
  let ds := s.takeWhile isDigit
  let r := s.dropWhile isDigit
  if ds.isEmpty then false
  else if r.length == 1 then isAorW (r.getD 0 ' ')
  else if r.getD 0 ' ' == '.' then
    let rest := r.tail
    let fs := rest.takeWhile isDigit
    let r2 := rest.dropWhile isDigit
    !fs.isEmpty && r2.length == 1 && isAorW (r2.getD 0 ' ')
  else false

/-! ## Character facts -/

lemma isDigit_cases {c : Char} (h : isDigit c = true) :
    c = '0' ∨ c = '1' ∨ c = '2' ∨ c = '3' ∨ c = '4' ∨
    c = '5' ∨ c = '6' ∨ c = '7' ∨ c = '8' ∨ c = '9' := by
  simpa [isDigit, or_assoc] using h

lemma isDigit_not_space {c : Char} (h : isDigit c = true) : isPySpace c = false := by
  rcases isDigit_cases h with h | h | h | h | h | h | h | h | h | h <;> subst h <;> decide

lemma isDigit_toUpper {c : Char} (h : isDigit c = true) : pyToUpper c = c := by
  rcases isDigit_cases h with h | h | h | h | h | h | h | h | h | h <;> subst h <;> decide

lemma isDigit_toLower {c : Char} (h : isDigit c = true) : pyToLower c = c := by
  rcases isDigit_cases h with h | h | h | h | h | h | h | h | h | h <;> subst h <;> decide

lemma isDigit_not_sign {c : Char} (h : isDigit c = true) :
    (c == '+' || c == '-') = false := by
  rcases isDigit_cases h with h | h | h | h | h | h | h | h | h | h <;> subst h <;> decide

lemma isDigit_not_underscore {c : Char} (h : isDigit c = true) : (c == '_') = false := by
  rcases isDigit_cases h with h | h | h | h | h | h | h | h | h | h <;> subst h <;> decide

lemma isDigit_ne_i {c : Char} (h : isDigit c = true) : ciEqChar c 'i' = false := by
  rcases isDigit_cases h with h | h | h | h | h | h | h | h | h | h <;> subst h <;> decide

lemma isDigit_ne_n {c : Char} (h : isDigit c = true) : ciEqChar c 'n' = false := by
  rcases isDigit_cases h with h | h | h | h | h | h | h | h | h | h <;> subst h <;> decide

lemma isAorW_toUpper {c : Char} (h : isAorW c = true) :
    pyToUpper c = 'A' ∨ pyToUpper c = 'W' := by
  have h' : c = 'A' ∨ c = 'W' ∨ c = 'a' ∨ c = 'w' := by
    simpa [isAorW, or_assoc] using h
  rcases h' with h' | h' | h' | h' <;> subst h' <;> decide

/-! ## `pyStrip` facts -/

lemma dropWhile_eq_self_of_all {p : Char → Bool} {l : List Char}
    (h : ∀ c ∈ l, p c = false) : l.dropWhile p = l := by
  cases l with
  | nil => rfl
  | cons c rest => simp [List.dropWhile_cons, h c (by simp)]

lemma pyStrip_eq_self {l : List Char} (h : ∀ c ∈ l, isPySpace c = false) :
    pyStrip l = l := by
  unfold pyStrip
  rw [dropWhile_eq_self_of_all h, dropWhile_eq_self_of_all (by simpa using h),
    List.reverse_reverse]

/-! ## `chompDigits` facts -/

/-- A maximal run of plain digits passes through `chompDigitsF`, leaving a
remainder that does not start with a digit or an underscore. -/
lemma chompDigitsF_digits (ds : List Char) (r : List Char) (fuel : Nat)
    (hds : ∀ c ∈ ds, isDigit c = true) (hfuel : ds.length ≤ fuel)
    (hr : r = [] ∨ ∃ c rest, r = c :: rest ∧ isDigit c = false ∧ (c == '_') = false) :
    chompDigitsF fuel (ds ++ r) = r := by
  induction ds generalizing fuel with
  | nil =>
    simp only [List.nil_append]
    rcases hr with rfl | ⟨c, rest, rfl, hc1, hc2⟩
    · cases fuel <;> rfl
    · cases fuel with
      | zero => rfl
      | succ fuel => simp [chompDigitsF, hc1, hc2]
  | cons d ds' ih =>
    cases fuel with
    | zero => simp at hfuel
    | succ fuel =>
      have hd : isDigit d = true := hds d (by simp)
      simp only [List.cons_append, chompDigitsF, hd, if_true]
      exact ih fuel (fun c hc => hds c (by simp [hc])) (by simpa using hfuel)

lemma chompDigits_digits (ds : List Char) (r : List Char)
    (hds : ∀ c ∈ ds, isDigit c = true)
    (hr : r = [] ∨ ∃ c rest, r = c :: rest ∧ isDigit c = false ∧ (c == '_') = false) :
    chompDigits (ds ++ r) = r := by
  exact chompDigitsF_digits ds r (ds ++ r).length hds (by simp) hr

/-! ## Decomposition of a regex match -/

/-- Any string in the language of `^[0-9]+(\.[0-9]+)?[AW]$` splits into a
nonempty digit run, an optional dot-plus-digits middle, and a final
`A`/`W` letter. -/
lemma matchesCcCpRegex_decomp {s : List Char} (h : matchesCcCpRegex s = true) :
    ∃ ds ms x, s = ds ++ ms ++ [x] ∧ ds ≠ [] ∧ (∀ c ∈ ds, isDigit c = true) ∧
      (ms = [] ∨ ∃ fs, ms = '.' :: fs ∧ fs ≠ [] ∧ ∀ c ∈ fs, isDigit c = true) ∧
      isAorW x = true := by
  simp only [matchesCcCpRegex] at h
  have hsplit := List.takeWhile_append_dropWhile isDigit s
  have hds_digits : ∀ a ∈ s.takeWhile isDigit, isDigit a = true :=
    fun a ha => List.mem_takeWhile_imp ha
  by_cases hds : (s.takeWhile isDigit).isEmpty = true
  · rw [if_pos hds] at h
    exact absurd h (by simp)
  rw [if_neg hds] at h
  have hds_ne : s.takeWhile isDigit ≠ [] := fun hnil => hds (by simp [hnil])
  by_cases hlen : ((s.dropWhile isDigit).length == 1) = true
  · rw [if_pos hlen] at h
    obtain ⟨x, hx⟩ := List.length_eq_one.mp (by simpa using hlen)
    refine ⟨s.takeWhile isDigit, [], x, ?_, hds_ne, hds_digits, Or.inl rfl, ?_⟩
    · conv_lhs => rw [← hsplit]
      rw [hx]; simp
    · rw [hx] at h; simpa using h
  rw [if_neg hlen] at h
  by_cases hdot : ((s.dropWhile isDigit).getD 0 ' ' == '.') = true
  · rw [if_pos hdot] at h
    simp only [Bool.and_eq_true] at h
    obtain ⟨⟨hfs, hlen2⟩, hx⟩ := h
    have hr_ne : s.dropWhile isDigit ≠ [] := by
      intro hnil
      rw [hnil] at hdot
      exact absurd hdot (by decide)
    obtain ⟨c1, rest, hr⟩ := List.exists_cons_of_ne_nil hr_ne
    have hc1 : c1 = '.' := by rw [hr] at hdot; simpa using hdot
    have hsplit2 := List.takeWhile_append_dropWhile isDigit rest
    obtain ⟨x, hx2⟩ := List.length_eq_one.mp (by
      rw [hr] at hlen2; simpa using hlen2)
    rw [hr] at hx
    simp only [List.tail_cons, hx2] at hx
    refine ⟨s.takeWhile isDigit, '.' :: rest.takeWhile isDigit, x,
      ?_, hds_ne, hds_digits, ?_, by simpa using hx⟩
    · conv_lhs => rw [← hsplit]
      rw [hr, hc1]
      conv_lhs => rw [← hsplit2]
      rw [hx2]
      simp
    · refine Or.inr ⟨rest.takeWhile isDigit, rfl, ?_,
        fun a ha => List.mem_takeWhile_imp ha⟩
      rw [hr] at hfs
      simp only [List.tail_cons] at hfs
      intro hnil
      rw [hnil] at hfs
      simp at hfs
  · rw [if_neg hdot] at h
    exact absurd h (by simp)

/-! ## `float()` accepts plain decimal digit strings -/

/-- A nonempty digit run, optionally followed by a dot and a nonempty digit
run, is accepted by Python's `float()`. -/
lemma pyFloatParses_digits (ds ms : List Char)
    (hds_ne : ds ≠ []) (hds : ∀ c ∈ ds, isDigit c = true)
    (hms : ms = [] ∨ ∃ fs, ms = '.' :: fs ∧ fs ≠ [] ∧ ∀ c ∈ fs, isDigit c = true) :
    pyFloatParses (ds ++ ms) = true := by
  have hnospace : ∀ c ∈ ds ++ ms, isPySpace c = false := by
    intro c hc
    rcases List.mem_append.mp hc with hc | hc
    · exact isDigit_not_space (hds c hc)
    · rcases hms with rfl | ⟨fs, rfl, _, hfs⟩
      · simp at hc
      · rcases List.mem_cons.mp hc with rfl | hc
        · decide
        · exact isDigit_not_space (hfs c hc)
  obtain ⟨d0, ds', rfl⟩ := List.exists_cons_of_ne_nil hds_ne
  have hd0 : isDigit d0 = true := hds d0 (by simp)
  have hchomp : chompDigits (ds' ++ ms) = ms := by
    apply chompDigits_digits
    · exact fun c hc => hds c (by simp [hc])
    · rcases hms with rfl | ⟨fs, rfl, _, _⟩
      · exact Or.inl rfl
      · exact Or.inr ⟨'.', fs, rfl, by decide, by decide⟩
  unfold pyFloatParses
  rw [pyStrip_eq_self hnospace]
  have hsign : chompSign (d0 :: ds' ++ ms) = d0 :: (ds' ++ ms) := by
    simp [chompSign, isDigit_not_sign hd0]
  rw [List.cons_append] at hsign ⊢
  rw [hsign]
  simp only [ciIs, isDigit_ne_i hd0, isDigit_ne_n hd0, Bool.false_and, Bool.or_self,
    Bool.false_or, if_false]
  have hbody : chompFloatBody (d0 :: (ds' ++ ms)) = some [] := by
    unfold chompFloatBody chompOptDigitpart
    simp only [chompDigitpart, hd0, if_true, hchomp]
    rcases hms with rfl | ⟨fs, rfl, hfs_ne, hfs⟩
    · rfl
    · obtain ⟨f0, fs', rfl⟩ := List.exists_cons_of_ne_nil hfs_ne
      have hf0 : isDigit f0 = true := hfs f0 (by simp)
      have hchomp2 : chompDigits fs' = [] := by
        have := chompDigits_digits fs' [] (fun c hc => hfs c (by simp [hc])) (Or.inl rfl)
        simpa using this
      simp [chompDigitpart, hf0, hchomp2]
  rw [hbody]
  rfl

lemma endsWithChar_concat (l : List Char) (a c : Char) :
    endsWithChar (l ++ [a]) c = (a == c) := by
  simp [endsWithChar, List.getLast?_concat]

/-! ## C1 and C2: claims about the CC/CP validator -/

/-- C1 (amended, part): every input whose trimmed form is in the language of
`^[0-9]+(\.[0-9]+)?[AW]$` (case-insensitive) is accepted by
`validate_cc_cp_input`.  The converse direction of the original claim is
false (see the counterexample): acceptance extends to every numeric prefix
Python's `float()` parses. -/
theorem validate_accepts_regex_language (s : List Char)
    (h : matchesCcCpRegex (pyStrip s) = true) :
    (validate_cc_cp_input s).1 = true := by
  obtain ⟨ds, ms, x, hdecomp, hds_ne, hds, hms, hx⟩ := matchesCcCpRegex_decomp h
  have hs_ne : s.isEmpty = false := by
    rcases s with _ | ⟨c, s'⟩
    · rw [show pyStrip ([] : List Char) = [] from rfl] at hdecomp
      exact absurd hdecomp.symm (by simp)
    · rfl
  have hupper : pyUpper (pyStrip s) = (ds ++ ms) ++ [pyToUpper x] := by
    rw [hdecomp]
    unfold pyUpper
    rw [List.map_append, List.map_append]
    have h1 : ds.map pyToUpper = ds := by
      rw [List.map_congr_left
        (fun a ha => isDigit_toUpper (hds a ha) : ∀ a ∈ ds, pyToUpper a = id a)]
      exact List.map_id ds
    have h2 : ms.map pyToUpper = ms := by
      rcases hms with rfl | ⟨fs, rfl, _, hfs⟩
      · rfl
      · simp only [List.map_cons]
        rw [List.map_congr_left
          (fun a ha => isDigit_toUpper (hfs a ha) : ∀ a ∈ fs, pyToUpper a = id a)]
        rw [List.map_id', show pyToUpper '.' = '.' from by decide]
    rw [h1, h2]
    rfl
  unfold validate_cc_cp_input
  rw [hs_ne]
  simp only [Bool.false_eq_true, if_false]
  rw [hupper]
  have hcond : (endsWithChar ((ds ++ ms) ++ [pyToUpper x]) 'A' ||
      endsWithChar ((ds ++ ms) ++ [pyToUpper x]) 'W') = true := by
    rcases isAorW_toUpper hx with hu | hu <;>
      rw [hu, endsWithChar_concat, endsWithChar_concat] <;> decide
  rw [hcond, if_pos rfl, List.dropLast_concat,
    pyFloatParses_digits ds ms hds_ne hds hms, if_pos rfl]

/-- C1 counterexample: the input `".5A"` is accepted by the validator but its
trimmed form is not in the language of `^[0-9]+(\.[0-9]+)?[AW]$`, so the
validator does not succeed exactly on the regex language. -/
theorem validate_regex_counterexample :
    (validate_cc_cp_input ['.', '5', 'A']).1 = true ∧
    matchesCcCpRegex (pyStrip ['.', '5', 'A']) = false := by decide

/-- C1 witness: the regex-to-acceptance direction at the concrete input
`"10.5W"`. -/
theorem validate_accepts_regex_language_witness :
    matchesCcCpRegex (pyStrip ['1', '0', '.', '5', 'W']) = true ∧
    (validate_cc_cp_input ['1', '0', '.', '5', 'W']).1 = true :=
  ⟨by decide, validate_accepts_regex_language ['1', '0', '.', '5', 'W'] (by decide)⟩

/-- C2 (amended): an input that is blank after trimming fails with
`EmptyInput` only when it is the genuinely empty string; a nonempty
whitespace-only input passes the (untrimmed) emptiness test and fails with
`BadSuffix` instead. -/
theorem blank_input_error_kind (s : List Char) (h : pyStrip s = []) :
    validate_cc_cp_input s =
      (false, if s.isEmpty then ValidateMsg.emptyInput else ValidateMsg.badSuffix) := by
  by_cases hs : s.isEmpty = true
  · unfold validate_cc_cp_input
    rw [hs]
    simp
  · unfold validate_cc_cp_input
    rw [eq_false_of_ne_true hs, h]
    simp only [Bool.false_eq_true, if_false]
    rfl

/-- C2 counterexample: the whitespace-only input `" "` is blank after
trimming but the validator reports `BadSuffix`, not `EmptyInput`. -/
theorem blank_input_badSuffix_counterexample :
    validate_cc_cp_input [' '] = (false, ValidateMsg.badSuffix) ∧
    validate_cc_cp_input [' '] ≠ (false, ValidateMsg.emptyInput) := by decide

/-- C2 witness: `blank_input_error_kind` applied to the empty input and to
a whitespace-only input. -/
theorem blank_input_error_kind_witness :
    validate_cc_cp_input [] = (false, ValidateMsg.emptyInput) ∧
    validate_cc_cp_input [' '] = (false, ValidateMsg.badSuffix) :=
  ⟨by simpa using blank_input_error_kind [] (by decide),
   by simpa using blank_input_error_kind [' '] (by decide)⟩

/-! ## Data model: session state, cells and tasks (source lines 17-23)

Python dicts are modelled as insertion-ordered association lists with one
binding per key; `dictInsert` mirrors `d[k] = v` (overwrite in place,
append when fresh) and `pyDictDel` mirrors `del d[k]` (raises `KeyError`
when the key is absent). -/

/-- Python half-even rounding to 2 decimal places, `round(x, 2)`. -/
def pyRound2 (x : ℚ) : ℚ :=
  let y := 100 * x
  let f : ℤ := Int.floor y
  let r : ℚ := y - f
  (if r < 1 / 2 then (f : ℚ) else if r > 1 / 2 then (f : ℚ) + 1
   else if f % 2 = 0 then (f : ℚ) else (f : ℚ) + 1) / 100

/-- Model of `calculate_capacity(voltage, current)` (source lines 40-42). -/
def calculate_capacity (voltage current : ℚ) : ℚ := pyRound2 (voltage * current)

/-- A cell record as stored in `cells_data` (source lines 169-177),
fields in dict insertion order. -/
structure CellData where
  cell_type : List Char
  voltage : ℚ
  current : ℚ
  temperature : ℚ
  capacity : ℚ
  min_voltage : ℚ
  max_voltage : ℚ
deriving DecidableEq

instance : Inhabited CellData :=
  ⟨{ cell_type := [], voltage := 0, current := 0, temperature := 0, capacity := 0,
     min_voltage := 0, max_voltage := 0 }⟩

/-- The three task variants offered by the task form (source line 240). -/
inductive TaskType where
  | cc_cv
  | idle
  | cc_cd
deriving DecidableEq

/-- A task record as stored in `tasks_data` (source lines 305-322): the
base dict `task_type`/`time_seconds` updated with the variant-specific
fields (absent fields stay `none`). -/
structure TaskData where
  task_type : TaskType
  time_seconds : Nat
  cc_cp : Option (List Char) := none
  cv_voltage : Option ℚ := none
  current : Option ℚ := none
  capacity : Option ℚ := none
  voltage : Option ℚ := none
deriving DecidableEq

instance : Inhabited TaskData :=
  ⟨{ task_type := TaskType.idle, time_seconds := 0 }⟩

/-- The session state (source lines 17-23). -/
structure AppState where
  cells_data : List (List Char × CellData)
  tasks_data : List (List Char × TaskData)
  task_counter : Nat
deriving DecidableEq

/-- The initial session state: empty stores, counter zero. -/
def initState : AppState := { cells_data := [], tasks_data := [], task_counter := 0 }

/-- Python `d[k] = v`: overwrite in place when the key exists, else append. -/
def dictInsert {α : Type} (m : List (List Char × α)) (k : List Char) (v : α) :
    List (List Char × α) :=
  if m.any (fun p => p.1 == k) then
    m.map (fun p => if p.1 == k then (k, v) else p)
  else m ++ [(k, v)]

/-- Python `d[k]` / `d.get(k)`: the binding of a key, if any. -/
def dictGet {α : Type} (m : List (List Char × α)) (k : List Char) : Option α :=
  match m with
  | [] => none
  | p :: rest => if p.1 == k then some p.2 else dictGet rest k

/-- Python `del d[k]` (the task delete handler, source line 345): raises
`KeyError` when the key is absent, otherwise removes the binding. -/
def pyDictDel {α : Type} (m : List (List Char × α)) (k : List Char) :
    Except Unit (List (List Char × α)) :=
  if m.any (fun p => p.1 == k) then
    Except.ok (m.eraseP (fun p => p.1 == k))
  else Except.error ()

/-- Model of `reset_all_data()` (source lines 59-64). -/
def reset_all_data (_st : AppState) : AppState :=
  { cells_data := [], tasks_data := [], task_counter := 0 }

/-! ## Task submission (source lines 288-329) -/

/-- The values read from the task form when the user submits. -/
structure TaskSubmission where
  task_type : TaskType
  time_seconds : Nat
  cc_input : List Char
  cv_voltage : ℚ
  current : ℚ
  capacity : ℚ
  voltage : ℚ
deriving DecidableEq

/-- Outcome of a task submission: success, or the aggregated list of field
error messages (each displayed prefixed with "CC/CP Input: "). -/
inductive SubmitResult where
  | success
  | failure (errors : List ValidateMsg)
deriving DecidableEq

/-- The key `f"task_{n}"`. -/
def taskKey (n : Nat) : List Char := "task_".toList ++ (Nat.repr n).toList

/-- The `task_submitted` handler (source lines 290-329): validate the
CC/CP field for the CC_CV and CC_CD variants, and on success increment the
counter and insert the new record built from the base dict plus the
variant-specific fields; on failure report the errors and leave the state
untouched. -/
def task_submitted (st : AppState) (sub : TaskSubmission) : AppState × SubmitResult :=
  let checked : Bool × List ValidateMsg :=
    if sub.task_type == TaskType.cc_cv || sub.task_type == TaskType.cc_cd then
      match validate_cc_cp_input sub.cc_input with
      | (true, _) => (true, [])
      | (false, m) => (false, [m])
    else (true, [])
  if checked.1 then
    let counter := st.task_counter + 1
    let base : TaskData := { task_type := sub.task_type, time_seconds := sub.time_seconds }
    let td : TaskData :=
      if sub.task_type == TaskType.cc_cv then
        { base with cc_cp := some sub.cc_input, cv_voltage := some sub.cv_voltage,
                    current := some sub.current, capacity := some sub.capacity }
      else if sub.task_type == TaskType.cc_cd then
        { base with cc_cp := some sub.cc_input, voltage := some sub.voltage,
                    capacity := some sub.capacity }
      else base
    ({ st with tasks_data := dictInsert st.tasks_data (taskKey counter) td,
               task_counter := counter }, SubmitResult.success)
  else (st, SubmitResult.failure checked.2)

/-! ## Operation sequences over the task store -/

/-- The task-store operations reachable from the UI: submit the task form,
press a delete button, press Reset All. -/
inductive TaskOp where
  | add (sub : TaskSubmission)
  | del (key : List Char)
  | reset
deriving DecidableEq

/-- Apply one operation to the session state.  A rejected submission and a
failed delete (`KeyError`) leave the session state unchanged (the script
reports the message/exception; the session state persists). -/
def applyOp (st : AppState) : TaskOp → AppState
  | TaskOp.add sub => (task_submitted st sub).1
  | TaskOp.del k =>
    match pyDictDel st.tasks_data k with
    | Except.ok m => { st with tasks_data := m }
    | Except.error _ => st
  | TaskOp.reset => reset_all_data st

/-- The ids assigned by the successful adds of an operation sequence, in
order (a task's id is the counter value at its insertion, the numeric part
of its `task_N` key). -/
def assignedIds (st : AppState) : List TaskOp → List Nat
  | [] => []
  | op :: rest =>
    match op with
    | TaskOp.add sub =>
      match task_submitted st sub with
      | (st', SubmitResult.success) => st'.task_counter :: assignedIds st' rest
      | (st', SubmitResult.failure _) => assignedIds st' rest
    | _ => assignedIds (applyOp st op) rest

lemma task_submitted_shape (st : AppState) (sub : TaskSubmission) :
    ((task_submitted st sub).2 = SubmitResult.success ∧
     (task_submitted st sub).1.task_counter = st.task_counter + 1) ∨
    ((task_submitted st sub).1 = st ∧
     (task_submitted st sub).2 ≠ SubmitResult.success) := by
  by_cases hty : (sub.task_type == TaskType.cc_cv || sub.task_type == TaskType.cc_cd) = true
  · rcases hv : validate_cc_cp_input sub.cc_input with ⟨b, m⟩
    cases b
    · right
      simp [task_submitted, hty, hv]
    · left
      simp [task_submitted, hty, hv]
  · left
    simp [task_submitted, eq_false_of_ne_true hty]

lemma applyOp_del_counter (st : AppState) (k : List Char) :
    (applyOp st (TaskOp.del k)).task_counter = st.task_counter := by
  cases hd : pyDictDel st.tasks_data k <;> simp [applyOp, hd]

/-- Without a reset, every id assigned downstream exceeds the current
counter, and the assigned ids are strictly increasing. -/
lemma assignedIds_mono (ops : List TaskOp) (st : AppState)
    (h : ∀ op ∈ ops, op ≠ TaskOp.reset) :
    (∀ i ∈ assignedIds st ops, st.task_counter < i) ∧
    List.Pairwise (fun a b => a < b) (assignedIds st ops) := by
  induction ops generalizing st with
  | nil => simp [assignedIds]
  | cons op rest ih =>
    have hrest : ∀ o ∈ rest, o ≠ TaskOp.reset := fun o ho => h o (by simp [ho])
    cases op with
    | add sub =>
      rcases hts : task_submitted st sub with ⟨st', r⟩
      have hshape := task_submitted_shape st sub
      rw [hts] at hshape
      cases r with
      | success =>
        have hctr : st'.task_counter = st.task_counter + 1 := by
          rcases hshape with ⟨_, hc⟩ | ⟨_, hne⟩
          · exact hc
          · exact absurd rfl hne
        have ihr := ih st' hrest
        simp only [assignedIds, hts]
        constructor
        · intro i hi
          rcases List.mem_cons.mp hi with rfl | hi
          · omega
          · have := ihr.1 i hi
            omega
        · exact List.Pairwise.cons (fun j hj => by have := ihr.1 j hj; omega) ihr.2
      | failure errs =>
        have hst : st' = st := hshape.elim (fun ⟨hs, _⟩ => absurd hs (by simp))
          (fun ⟨hs, _⟩ => hs)
        subst hst
        have ihr := ih st' hrest
        simp only [assignedIds, hts]
        exact ihr
    | del k =>
      have ihr := ih (applyOp st (TaskOp.del k)) hrest
      rw [applyOp_del_counter] at ihr
      simpa [assignedIds] using ihr
    | reset => exact absurd rfl (h TaskOp.reset (by simp))

/-! ## C8: task-id uniqueness across operation sequences -/

/-- C8 (amended): across any sequence of add and delete operations (no
reset), every successful add assigns an id strictly greater than every id
previously assigned, so ids are unique and never reused even after
deletions.  A reset restarts the counter at zero, after which ids are
reused (see the counterexample). -/
theorem ids_strictly_increase (st : AppState) (ops : List TaskOp)
    (h : ∀ op ∈ ops, op ≠ TaskOp.reset) :
    List.Pairwise (fun a b => a < b) (assignedIds st ops) :=
  (assignedIds_mono ops st h).2

/-- C8 counterexample: add, reset, add assigns the id 1 twice, so ids are
reused across sequences that contain a reset. -/
theorem ids_reused_after_reset_counterexample :
    assignedIds initState
      [TaskOp.add ⟨TaskType.idle, 60, [], 0, 0, 0, 0⟩, TaskOp.reset,
       TaskOp.add ⟨TaskType.idle, 60, [], 0, 0, 0, 0⟩] = [1, 1] ∧
    ¬ List.Pairwise (fun a b => a < b) ([1, 1] : List Nat) := by
  constructor
  · rfl
  · decide

/-- C8 witness: strictly increasing ids on a concrete add/add/delete/add
sequence (the id of the deleted task is not reused). -/
theorem ids_strictly_increase_witness :
    List.Pairwise (fun a b => a < b)
      (assignedIds initState
        [TaskOp.add ⟨TaskType.idle, 60, [], 0, 0, 0, 0⟩,
         TaskOp.add ⟨TaskType.idle, 30, [], 0, 0, 0, 0⟩,
         TaskOp.del (taskKey 1),
         TaskOp.add ⟨TaskType.idle, 90, [], 0, 0, 0, 0⟩]) :=
  ids_strictly_increase initState _ (by decide)

/-! ## C3: deleting an absent task id -/

/-- C3 (amended): deleting a task id that is not in the store is not a
silent no-op: `del tasks_data[key]` raises `KeyError`.  The store itself is
left unchanged by the failed attempt (and in the UI the delete button only
exists for present ids, so the error is unreachable through normal
interaction). -/
theorem delete_absent_raises (st : AppState) (k : List Char)
    (h : ∀ p ∈ st.tasks_data, p.1 ≠ k) :
    pyDictDel st.tasks_data k = Except.error () ∧
    applyOp st (TaskOp.del k) = st := by
  have hany : st.tasks_data.any (fun p => p.1 == k) = false := by
    rw [Bool.eq_false_iff]
    intro hc
    obtain ⟨p, hp, hpk⟩ := List.any_eq_true.mp hc
    exact h p hp (by simpa using hpk)
  have herr : pyDictDel st.tasks_data k = Except.error () := by
    unfold pyDictDel
    rw [hany]
    rfl
  exact ⟨herr, by simp [applyOp, herr]⟩

/-- C3 counterexample: deleting `task_1` from an empty task store raises
`KeyError` instead of silently succeeding. -/
theorem delete_absent_counterexample :
    pyDictDel ([] : List (List Char × TaskData)) (taskKey 1) = Except.error () := rfl

/-- C3 witness: `delete_absent_raises` on a store holding only `task_1`,
deleting the absent id `task_2`. -/
theorem delete_absent_raises_witness :
    pyDictDel ((applyOp initState
        (TaskOp.add ⟨TaskType.idle, 60, [], 0, 0, 0, 0⟩)).tasks_data) (taskKey 2) =
      Except.error () ∧
    applyOp (applyOp initState (TaskOp.add ⟨TaskType.idle, 60, [], 0, 0, 0, 0⟩))
      (TaskOp.del (taskKey 2)) =
      applyOp initState (TaskOp.add ⟨TaskType.idle, 60, [], 0, 0, 0, 0⟩) :=
  delete_absent_raises _ (taskKey 2) (by decide)

/-! ## C5: an invalid CC/CP field rejects the submission without mutation -/

/-- C5: for a CC_CV or CC_CD submission whose CC/CP field fails validation,
`task_submitted` reports the aggregated field errors (here the single
CC/CP message) and returns the state unchanged: same task store, same
counter. -/
theorem invalid_cc_cp_submission_rejected (st : AppState) (sub : TaskSubmission)
    (hty : sub.task_type = TaskType.cc_cv ∨ sub.task_type = TaskType.cc_cd)
    (hval : (validate_cc_cp_input sub.cc_input).1 = false) :
    task_submitted st sub =
      (st, SubmitResult.failure [(validate_cc_cp_input sub.cc_input).2]) := by
  have hcond : (sub.task_type == TaskType.cc_cv || sub.task_type == TaskType.cc_cd) = true := by
    rcases hty with h | h <;> rw [h] <;> rfl
  rcases hvp : validate_cc_cp_input sub.cc_input with ⟨b, m⟩
  have hb : b = false := by rw [hvp] at hval; exact hval
  subst hb
  simp [task_submitted, hcond, hvp]

/-- C5 witness: a CC_CV submission with the invalid CC/CP value `"5X"` is
rejected with the bad-suffix message and the initial state is unchanged. -/
theorem invalid_cc_cp_submission_rejected_witness :
    task_submitted initState ⟨TaskType.cc_cv, 60, ['5', 'X'], 36 / 10, 1, 1, 0⟩ =
      (initState, SubmitResult.failure [ValidateMsg.badSuffix]) := by
  have h := invalid_cc_cp_submission_rejected initState
    ⟨TaskType.cc_cv, 60, ['5', 'X'], 36 / 10, 1, 1, 0⟩ (Or.inl rfl) (by decide)
  rw [h]
  decide

/-! ## C10: an accepted CC/CP value is stored verbatim -/

lemma dictGet_append_absent {α : Type} (m : List (List Char × α)) (k : List Char) (v : α)
    (h : m.any (fun p => p.1 == k) = false) :
    dictGet (m ++ [(k, v)]) k = some v := by
  induction m with
  | nil => simp [dictGet]
  | cons p rest ih =>
    rw [List.any_cons, Bool.or_eq_false_iff] at h
    simp only [List.cons_append, dictGet]
    rw [if_neg (by simp [h.1])]
    exact ih h.2

lemma dictGet_map_overwrite {α : Type} (m : List (List Char × α)) (k : List Char) (v : α)
    (h : m.any (fun p => p.1 == k) = true) :
    dictGet (m.map (fun p => if p.1 == k then (k, v) else p)) k = some v := by
  induction m with
  | nil => simp at h
  | cons p rest ih =>
    rw [List.any_cons, Bool.or_eq_true] at h
    simp only [List.map_cons]
    by_cases hp : (p.1 == k) = true
    · rw [if_pos hp]
      simp [dictGet]
    · rw [if_neg hp]
      simp only [dictGet]
      rw [if_neg (by simp [hp])]
      exact ih (h.resolve_left hp)

lemma dictGet_dictInsert {α : Type} (m : List (List Char × α)) (k : List Char) (v : α) :
    dictGet (dictInsert m k v) k = some v := by
  unfold dictInsert
  by_cases h : m.any (fun p => p.1 == k) = true
  · rw [if_pos h]
    exact dictGet_map_overwrite m k v h
  · rw [if_neg h]
    exact dictGet_append_absent m k v (Bool.eq_false_iff.mpr h)

/-- C10: when a CC_CV or CC_CD submission is accepted, the stored record's
`cc_cp` field is the raw input string exactly as typed: validation strips
and uppercases only a local copy, and `task_data` stores `cc_input`
verbatim, so listing and export see the untrimmed, un-uppercased text. -/
theorem accepted_cc_cp_stored_verbatim (st : AppState) (sub : TaskSubmission)
    (hty : sub.task_type = TaskType.cc_cv ∨ sub.task_type = TaskType.cc_cd)
    (hval : (validate_cc_cp_input sub.cc_input).1 = true) :
    (task_submitted st sub).2 = SubmitResult.success ∧
    ∃ td : TaskData,
      dictGet (task_submitted st sub).1.tasks_data (taskKey (st.task_counter + 1)) =
        some td ∧
      td.cc_cp = some sub.cc_input := by
  have hcond : (sub.task_type == TaskType.cc_cv || sub.task_type == TaskType.cc_cd) = true := by
    rcases hty with h | h <;> rw [h] <;> rfl
  rcases hvp : validate_cc_cp_input sub.cc_input with ⟨b, m⟩
  have hb : b = true := by rw [hvp] at hval; exact hval
  subst hb
  rcases hty with h | h
  · refine ⟨by simp [task_submitted, hcond, hvp], ?_⟩
    refine ⟨{ task_type := sub.task_type, time_seconds := sub.time_seconds,
              cc_cp := some sub.cc_input, cv_voltage := some sub.cv_voltage,
              current := some sub.current, capacity := some sub.capacity,
              voltage := none }, ?_, rfl⟩
    simp only [task_submitted, hcond, hvp, h]
    simpa using dictGet_dictInsert st.tasks_data (taskKey (st.task_counter + 1)) _
  · refine ⟨by simp [task_submitted, hcond, hvp], ?_⟩
    refine ⟨{ task_type := sub.task_type, time_seconds := sub.time_seconds,
              cc_cp := some sub.cc_input, cv_voltage := none,
              current := none, capacity := some sub.capacity,
              voltage := some sub.voltage }, ?_, rfl⟩
    simp only [task_submitted, hcond, hvp, h]
    simpa using dictGet_dictInsert st.tasks_data (taskKey (st.task_counter + 1)) _

/-- C10 witness: the accepted, whitespace-padded lowercase input `" 5a "`
is stored exactly as typed. -/
theorem accepted_cc_cp_stored_verbatim_witness :
    (task_submitted initState ⟨TaskType.cc_cv, 60, [' ', '5', 'a', ' '], 36 / 10, 1, 1, 0⟩).2 =
      SubmitResult.success ∧
    ∃ td : TaskData,
      dictGet (task_submitted initState
          ⟨TaskType.cc_cv, 60, [' ', '5', 'a', ' '], 36 / 10, 1, 1, 0⟩).1.tasks_data
        (taskKey (initState.task_counter + 1)) = some td ∧
      td.cc_cp = some [' ', '5', 'a', ' '] :=
  accepted_cc_cp_stored_verbatim initState
    ⟨TaskType.cc_cv, 60, [' ', '5', 'a', ' '], 36 / 10, 1, 1, 0⟩ (Or.inl rfl) (by decide)

/-! ## C7: chemistry presets (source lines 25-38) -/

/-- The default parameter triple returned by `get_cell_parameters`. -/
structure CellParams where
  voltage : ℚ
  min_voltage : ℚ
  max_voltage : ℚ
deriving DecidableEq

/-- Model of `get_cell_parameters(cell_type)`: the LFP preset when the lowercased
tag is `"lfp"`, the generic (NMC-or-other) preset otherwise. -/
def get_cell_parameters (cell_type : List Char) : CellParams :=
  if pyLower cell_type == "lfp".toList then
    { voltage := 32 / 10, min_voltage := 28 / 10, max_voltage := 36 / 10 }
  else
    { voltage := 36 / 10, min_voltage := 32 / 10, max_voltage := 4 }

/-- C7: a tag equal to "LFP" up to letter case (same lowercase form) gets
the LFP preset 3.2/2.8/3.6; every other tag, recognized or not, gets the
generic preset 3.6/3.2/4.0; in particular `get_cell_parameters` agrees on
"lfp" and "LFP". -/
theorem get_cell_parameters_policy (tag : List Char) :
    (pyLower tag = "lfp".toList →
      get_cell_parameters tag =
        { voltage := 32 / 10, min_voltage := 28 / 10, max_voltage := 36 / 10 }) ∧
    (pyLower tag ≠ "lfp".toList →
      get_cell_parameters tag =
        { voltage := 36 / 10, min_voltage := 32 / 10, max_voltage := 4 }) ∧
    get_cell_parameters "lfp".toList = get_cell_parameters "LFP".toList := by
  refine ⟨fun h => ?_, fun h => ?_, by rfl⟩
  · rw [get_cell_parameters, if_pos (beq_iff_eq.mpr h)]
  · rw [get_cell_parameters, if_neg (fun hc => h (beq_iff_eq.mp hc))]

/-- C7 witness: mixed-case `"LfP"` gets the LFP preset, `"LTO"` falls back
to the generic preset, and `"lfp"`/`"LFP"` agree. -/
theorem get_cell_parameters_policy_witness :
    get_cell_parameters ['L', 'f', 'P'] =
      { voltage := 32 / 10, min_voltage := 28 / 10, max_voltage := 36 / 10 } ∧
    get_cell_parameters ['L', 'T', 'O'] =
      { voltage := 36 / 10, min_voltage := 32 / 10, max_voltage := 4 } ∧
    get_cell_parameters "lfp".toList = get_cell_parameters "LFP".toList :=
  ⟨(get_cell_parameters_policy ['L', 'f', 'P']).1 (by decide),
   (get_cell_parameters_policy ['L', 'T', 'O']).2.1 (by decide),
   (get_cell_parameters_policy ['L', 'T', 'O']).2.2⟩

/-! ## C9: cells summary metrics (source lines 386-400) -/

/-- The summary triple shown in the Cells Summary panel. -/
structure CellsSummary where
  total_capacity : ℚ
  avg_temp : ℚ
  avg_voltage : ℚ
deriving DecidableEq

/-- The cells-summary metrics: the whole block is guarded by
`if st.session_state.cells_data:`, so an empty store produces no summary
(`none`) and the divisions by `len(...)` are never reached. -/
def aggregate (cells : List (List Char × CellData)) : Option CellsSummary :=
  if cells.isEmpty then none
  else some
    { total_capacity := (cells.map fun p => p.2.capacity).sum,
      avg_temp := (cells.map fun p => p.2.temperature).sum / cells.length,
      avg_voltage := (cells.map fun p => p.2.voltage).sum / cells.length }

/-- The key `f"cell_{cell_id}_{cell_type.lower()}"` (source line 164). -/
def cellKey (cell_id : Nat) (cell_type : List Char) : List Char :=
  "cell_".toList ++ (Nat.repr cell_id).toList ++ "_".toList ++ pyLower cell_type

/-- The add-cells form submission (source lines 161-180): one cell per
iteration; the `random.uniform(25, 40)` temperature draws are supplied as
the list `temps` (one entry per added cell, so `num_cells = temps.length`). -/
def addCells (st : AppState) (cell_type : List Char)
    (voltage current min_voltage max_voltage : ℚ) (temps : List ℚ) : AppState :=
  match temps with
  | [] => st
  | temp :: rest =>
    let cell_id := st.cells_data.length + 1
    let c : CellData :=
      { cell_type := cell_type, voltage := voltage, current := current,
        temperature := temp, capacity := calculate_capacity voltage current,
        min_voltage := min_voltage, max_voltage := max_voltage }
    addCells { st with cells_data := dictInsert st.cells_data (cellKey cell_id cell_type) c }
      cell_type voltage current min_voltage max_voltage rest

/-- The state after adding 3 LFP cells with the LFP preset (custom voltage
off, initial current 0) and sampled temperatures `t1, t2, t3`. -/
def threeLfpCells (t1 t2 t3 : ℚ) : AppState :=
  addCells initState ['L', 'F', 'P'] (get_cell_parameters ['L', 'F', 'P']).voltage 0
    (get_cell_parameters ['L', 'F', 'P']).min_voltage
    (get_cell_parameters ['L', 'F', 'P']).max_voltage [t1, t2, t3]

/-- C9: the summary is `none` on an empty store (no division by zero);
on a nonempty store it is the capacity total and the temperature and
voltage means; and after adding exactly 3 LFP preset cells the mean
voltage is 3.2 and the total capacity is the sum of the three stored
capacities. -/
theorem aggregate_metrics :
    aggregate ([] : List (List Char × CellData)) = none ∧
    (∀ cells : List (List Char × CellData), cells ≠ [] →
      aggregate cells = some
        { total_capacity := (cells.map fun p => p.2.capacity).sum,
          avg_temp := (cells.map fun p => p.2.temperature).sum / cells.length,
          avg_voltage := (cells.map fun p => p.2.voltage).sum / cells.length }) ∧
    (∀ t1 t2 t3 : ℚ,
      (aggregate (threeLfpCells t1 t2 t3).cells_data).map CellsSummary.avg_voltage =
        some (32 / 10) ∧
      (aggregate (threeLfpCells t1 t2 t3).cells_data).map CellsSummary.total_capacity =
        some (((threeLfpCells t1 t2 t3).cells_data.map fun p => p.2.capacity).sum)) := by
  refine ⟨rfl, ?_, ?_⟩
  · intro cells hne
    rw [aggregate, if_neg (by simpa [List.isEmpty_iff] using hne)]
  · intro t1 t2 t3
    have hk12 : ((cellKey 1 ['L', 'F', 'P']) == (cellKey 2 ['L', 'F', 'P'])) = false := by
      decide
    have hk13 : ((cellKey 1 ['L', 'F', 'P']) == (cellKey 3 ['L', 'F', 'P'])) = false := by
      decide
    have hk23 : ((cellKey 2 ['L', 'F', 'P']) == (cellKey 3 ['L', 'F', 'P'])) = false := by
      decide
    have hz : (0 : Nat) + 1 = 1 := rfl
    have ho : (1 : Nat) + 1 = 2 := rfl
    have ht : (2 : Nat) + 1 = 3 := rfl
    have hcells : (threeLfpCells t1 t2 t3).cells_data =
        [(cellKey 1 ['L', 'F', 'P'],
          { cell_type := ['L', 'F', 'P'],
            voltage := (get_cell_parameters ['L', 'F', 'P']).voltage, current := 0,
            temperature := t1,
            capacity := calculate_capacity (get_cell_parameters ['L', 'F', 'P']).voltage 0,
            min_voltage := (get_cell_parameters ['L', 'F', 'P']).min_voltage,
            max_voltage := (get_cell_parameters ['L', 'F', 'P']).max_voltage }),
         (cellKey 2 ['L', 'F', 'P'],
          { cell_type := ['L', 'F', 'P'],
            voltage := (get_cell_parameters ['L', 'F', 'P']).voltage, current := 0,
            temperature := t2,
            capacity := calculate_capacity (get_cell_parameters ['L', 'F', 'P']).voltage 0,
            min_voltage := (get_cell_parameters ['L', 'F', 'P']).min_voltage,
            max_voltage := (get_cell_parameters ['L', 'F', 'P']).max_voltage }),
         (cellKey 3 ['L', 'F', 'P'],
          { cell_type := ['L', 'F', 'P'],
            voltage := (get_cell_parameters ['L', 'F', 'P']).voltage, current := 0,
            temperature := t3,
            capacity := calculate_capacity (get_cell_parameters ['L', 'F', 'P']).voltage 0,
            min_voltage := (get_cell_parameters ['L', 'F', 'P']).min_voltage,
            max_voltage := (get_cell_parameters ['L', 'F', 'P']).max_voltage })] := by
      simp only [threeLfpCells, addCells, initState, dictInsert, List.any_nil, List.any_cons,
        Bool.or_false, Bool.false_eq_true, if_false, List.nil_append, List.cons_append,
        List.length_nil, List.length_cons, hz, ho, ht, hk12, hk13, hk23, List.map_nil]
    rw [hcells]
    have hvolt : (get_cell_parameters ['L', 'F', 'P']).voltage = 32 / 10 := by
      rw [get_cell_parameters, if_pos (by decide)]
    constructor
    · simp only [aggregate, List.isEmpty_cons, Bool.false_eq_true, if_false,
        Option.map_some, List.map_cons, List.map_nil, List.length_cons, List.length_nil,
        List.sum_cons, List.sum_nil, hvolt]
      norm_num
    · simp only [aggregate, List.isEmpty_cons, Bool.false_eq_true, if_false,
        Option.map_some, List.map_cons, List.map_nil, List.sum_cons, List.sum_nil,
        List.length_cons, List.length_nil]
      rfl

/-- C9 witness: the nonempty-store branch of `aggregate_metrics` at a
concrete singleton store. -/
theorem aggregate_metrics_witness :
    aggregate [("cell_1_lfp".toList,
        { cell_type := ['L', 'F', 'P'], voltage := 32 / 10, current := 2,
          temperature := 30, capacity := 64 / 10, min_voltage := 28 / 10,
          max_voltage := 36 / 10 })] =
      some { total_capacity := 64 / 10, avg_temp := 30, avg_voltage := 32 / 10 } := by
  have h := aggregate_metrics.2.1 [("cell_1_lfp".toList,
    { cell_type := ['L', 'F', 'P'], voltage := 32 / 10, current := 2,
      temperature := 30, capacity := 64 / 10, min_voltage := 28 / 10,
      max_voltage := 36 / 10 })] (by simp)
  rw [h]
  simp only [List.map_cons, List.map_nil, List.sum_cons, List.sum_nil, List.length_cons,
    List.length_nil]
  norm_num

/-! ## C6: the task timeline (source lines 352-365) -/

/-- One row of `timeline_data`. -/
structure TimelineEntry where
  task : List Char
  start : Nat
  finish : Nat
  type : TaskType
deriving DecidableEq

instance : Inhabited TimelineEntry := ⟨⟨[], 0, 0, TaskType.idle⟩⟩

/-- The default entry used with `List.getD` below. -/
def timelineDefault : TimelineEntry := ⟨[], 0, 0, TaskType.idle⟩

/-- The default task binding used with `List.getD` below. -/
def taskPairDefault : List Char × TaskData :=
  ([], { task_type := TaskType.idle, time_seconds := 0 })

/-- The timeline loop (source lines 353-365): `cumulative_time` starts at
0; each task starts at the accumulator, finishes `time_seconds` later, and
advances the accumulator to its finish. -/
def timeline_go (cumulative_time : Nat) :
    List (List Char × TaskData) → List TimelineEntry
  | [] => []
  | (task_key, td) :: rest =>
    { task := task_key, start := cumulative_time,
      finish := cumulative_time + td.time_seconds, type := td.task_type } ::
      timeline_go (cumulative_time + td.time_seconds) rest

/-- The `timeline_data` rows built from the tasks in insertion order. -/
def buildTimeline (tasks : List (List Char × TaskData)) : List TimelineEntry :=
  timeline_go 0 tasks

lemma timeline_go_length (cumulative_time : Nat) (tasks : List (List Char × TaskData)) :
    (timeline_go cumulative_time tasks).length = tasks.length := by
  induction tasks generalizing cumulative_time with
  | nil => rfl
  | cons t rest ih =>
    obtain ⟨k, td⟩ := t
    simp [timeline_go, ih]

lemma timeline_go_finish (cumulative_time : Nat) (tasks : List (List Char × TaskData))
    (i : Nat) (h : i < tasks.length) :
    ((timeline_go cumulative_time tasks).getD i timelineDefault).finish =
      ((timeline_go cumulative_time tasks).getD i timelineDefault).start +
        (tasks.getD i taskPairDefault).2.time_seconds := by
  induction tasks generalizing cumulative_time i with
  | nil => simp at h
  | cons t rest ih =>
    obtain ⟨k, td⟩ := t
    cases i with
    | zero => simp [timeline_go]
    | succ i =>
      simp only [timeline_go, List.getD_cons_succ]
      exact ih _ i (by simpa using h)

lemma timeline_go_consecutive (cumulative_time : Nat)
    (tasks : List (List Char × TaskData)) (i : Nat) (h : i + 1 < tasks.length) :
    ((timeline_go cumulative_time tasks).getD (i + 1) timelineDefault).start =
      ((timeline_go cumulative_time tasks).getD i timelineDefault).finish := by
  induction tasks generalizing cumulative_time i with
  | nil => simp at h
  | cons t rest ih =>
    obtain ⟨k, td⟩ := t
    cases i with
    | zero =>
      cases rest with
      | nil => simp at h
      | cons t2 rest2 =>
        obtain ⟨k2, td2⟩ := t2
        simp [timeline_go]
    | succ i =>
      simp only [timeline_go, List.getD_cons_succ]
      exact ih _ i (by simpa using h)

/-- Three IDLE tasks with durations 60, 30 and 90 seconds. -/
def demoTasks : List (List Char × TaskData) :=
  [(taskKey 1, { task_type := TaskType.idle, time_seconds := 60 }),
   (taskKey 2, { task_type := TaskType.idle, time_seconds := 30 }),
   (taskKey 3, { task_type := TaskType.idle, time_seconds := 90 })]

/-- C6: the timeline has one row per task; the first row starts at 0; each
row finishes at its start plus the task's duration; each subsequent row
starts at the previous row's finish; and durations [60, 30, 90] yield
starts [0, 60, 90] and finishes [60, 90, 180]. -/
theorem timeline_sequential (tasks : List (List Char × TaskData)) :
    (buildTimeline tasks).length = tasks.length ∧
    (tasks ≠ [] → ((buildTimeline tasks).getD 0 timelineDefault).start = 0) ∧
    (∀ i, i < tasks.length →
      ((buildTimeline tasks).getD i timelineDefault).finish =
        ((buildTimeline tasks).getD i timelineDefault).start +
          (tasks.getD i taskPairDefault).2.time_seconds) ∧
    (∀ i, i + 1 < tasks.length →
      ((buildTimeline tasks).getD (i + 1) timelineDefault).start =
        ((buildTimeline tasks).getD i timelineDefault).finish) ∧
    ((buildTimeline demoTasks).map TimelineEntry.start = [0, 60, 90] ∧
     (buildTimeline demoTasks).map TimelineEntry.finish = [60, 90, 180]) := by
  refine ⟨timeline_go_length 0 tasks, ?_, timeline_go_finish 0 tasks,
    timeline_go_consecutive 0 tasks, by decide, by decide⟩
  intro hne
  obtain ⟨t, rest, rfl⟩ := List.exists_cons_of_ne_nil hne
  obtain ⟨k, td⟩ := t
  rfl

/-- C6 witness: the general layout facts of `timeline_sequential` applied
to the concrete three-task list. -/
theorem timeline_sequential_witness :
    ((buildTimeline demoTasks).getD 0 timelineDefault).start = 0 ∧
    ((buildTimeline demoTasks).getD 1 timelineDefault).finish =
      ((buildTimeline demoTasks).getD 1 timelineDefault).start + 30 ∧
    ((buildTimeline demoTasks).getD 2 timelineDefault).start =
      ((buildTimeline demoTasks).getD 1 timelineDefault).finish :=
  ⟨(timeline_sequential demoTasks).2.1 (by decide),
   by
    have h := (timeline_sequential demoTasks).2.2.1 1 (by decide)
    rw [show (demoTasks.getD 1 taskPairDefault).2.time_seconds = 30 from rfl] at h
    exact h,
   (timeline_sequential demoTasks).2.2.2.1 1 (by decide)⟩

/-! ## C4: JSON export (source lines 66-73)

`export_data()` builds the dict {"timestamp": datetime.now().isoformat(),
"cells": cells_data, "tasks": tasks_data} and returns
`json.dumps(..., indent=2)`.  The serializer below renders that layout:
entries of an object are indented two spaces past the indentation `pad` of
its closing brace, dict order is insertion order, and the empty dict
prints inline.  Numeric rendering is abstracted by `ratToChars` (integral
rationals print as integers); the claims below do not depend on the digits
chosen.  The wall-clock reading is passed in as the `now_iso` argument. -/

/-- The `{` character. -/
def lbrace : Char := Char.ofNat 123

/-- The `}` character. -/
def rbrace : Char := Char.ofNat 125

/-- A JSON string literal (the app's keys and values need no escaping). -/
def jsonQuote (s : List Char) : List Char := '"' :: s ++ ['"']

/-- Render a rational as a JSON number. -/
def ratToChars (q : ℚ) : List Char :=
  if q.den = 1 then q.num.repr.toList
  else q.num.repr.toList ++ '/' :: (Nat.repr q.den).toList

/-- Render a natural number. -/
def natToChars (n : Nat) : List Char := (Nat.repr n).toList

/-- Concatenate rendered pieces with a separator. -/
def joinSep (sep : List Char) : List (List Char) → List Char
  | [] => []
  | [x] => x
  | x :: xs => x ++ sep ++ joinSep sep xs

/-- The `json.dumps(..., indent=2)` layout of one object whose values are
already rendered: entries two spaces past `pad`, closing brace at `pad`,
empty object inline. -/
def dumpObj (pad : List Char) (fields : List (List Char × List Char)) : List Char :=
  if fields.isEmpty then [lbrace, rbrace]
  else lbrace :: '\n' ::
    (joinSep [',', '\n']
      (fields.map fun f => pad ++ ' ' :: ' ' :: jsonQuote f.1 ++ ':' :: ' ' :: f.2)) ++
    '\n' :: pad ++ [rbrace]

/-- A cell record's fields in dict insertion order (source lines 169-177). -/
def cellFields (c : CellData) : List (List Char × List Char) :=
  [("cell_type".toList, jsonQuote c.cell_type),
   ("voltage".toList, ratToChars c.voltage),
   ("current".toList, ratToChars c.current),
   ("temperature".toList, ratToChars c.temperature),
   ("capacity".toList, ratToChars c.capacity),
   ("min_voltage".toList, ratToChars c.min_voltage),
   ("max_voltage".toList, ratToChars c.max_voltage)]

/-- The display name of a task variant (source line 240). -/
def taskTypeStr : TaskType → List Char
  | TaskType.cc_cv => "CC_CV".toList
  | TaskType.idle => "IDLE".toList
  | TaskType.cc_cd => "CC_CD".toList

/-- A task record's fields in dict insertion order: the base fields, then
the variant fields added by `task_data.update` (source lines 305-322).
Stored records always carry their variant's fields, so the `getD`
defaults are never rendered for store-produced records. -/
def taskFields (td : TaskData) : List (List Char × List Char) :=
  [("task_type".toList, jsonQuote (taskTypeStr td.task_type)),
   ("time_seconds".toList, natToChars td.time_seconds)] ++
  (match td.task_type with
   | TaskType.cc_cv =>
     [("cc_cp".toList, jsonQuote (td.cc_cp.getD [])),
      ("cv_voltage".toList, ratToChars (td.cv_voltage.getD 0)),
      ("current".toList, ratToChars (td.current.getD 0)),
      ("capacity".toList, ratToChars (td.capacity.getD 0))]
   | TaskType.cc_cd =>
     [("cc_cp".toList, jsonQuote (td.cc_cp.getD [])),
      ("voltage".toList, ratToChars (td.voltage.getD 0)),
      ("capacity".toList, ratToChars (td.capacity.getD 0))]
   | TaskType.idle => [])

/-- The rendered cells store (a value at top level: entries at indent 4,
closing brace at indent 2). -/
def dumpCells (cells : List (List Char × CellData)) : List Char :=
  dumpObj [' ', ' ']
    (cells.map fun p => (p.1, dumpObj [' ', ' ', ' ', ' '] (cellFields p.2)))

/-- The rendered tasks store. -/
def dumpTasks (tasks : List (List Char × TaskData)) : List Char :=
  dumpObj [' ', ' ']
    (tasks.map fun p => (p.1, dumpObj [' ', ' ', ' ', ' '] (taskFields p.2)))

/-- Model of `export_data()`: `json.dumps` with `indent=2` of the export dict; the
`datetime.now().isoformat()` reading enters as `now_iso`. -/
def export_data (now_iso : List Char) (cells : List (List Char × CellData))
    (tasks : List (List Char × TaskData)) : List Char :=
  dumpObj [] [("timestamp".toList, jsonQuote now_iso),
              ("cells".toList, dumpCells cells),
              ("tasks".toList, dumpTasks tasks)]

/-- Everything of the export output before the timestamp value. -/
def exportHead : List Char :=
  lbrace :: '\n' :: ' ' :: ' ' :: '"' :: "timestamp".toList ++ '"' :: ':' :: ' ' :: ['"']

/-- Everything of the export output after the timestamp value: determined
by the two stores alone. -/
def exportTail (cells : List (List Char × CellData))
    (tasks : List (List Char × TaskData)) : List Char :=
  '"' :: ',' :: '\n' :: ' ' :: ' ' :: '"' :: "cells".toList ++
    '"' :: ':' :: ' ' :: dumpCells cells ++
    ',' :: '\n' :: ' ' :: ' ' :: '"' :: "tasks".toList ++
    '"' :: ':' :: ' ' :: dumpTasks tasks ++ '\n' :: [rbrace]

/-- C4 (amended): the export is a pure function of the store state and the
call-time timestamp, not of the state alone: its output decomposes as a
constant head, the timestamp, and a tail determined solely by the cells
and tasks stores, so two invocations on the same state differ exactly in
the timestamp and agree on everything else. -/
theorem export_data_decomposition (t1 t2 : List Char)
    (cells : List (List Char × CellData)) (tasks : List (List Char × TaskData)) :
    export_data t1 cells tasks = exportHead ++ t1 ++ exportTail cells tasks ∧
    export_data t2 cells tasks = exportHead ++ t2 ++ exportTail cells tasks := by
  constructor <;>
    simp [export_data, dumpObj, joinSep, jsonQuote, exportHead, exportTail]

/-- C4 counterexample: on the same (empty) stores, two invocations with
different call times produce different output strings, so toJSON is not a
function of the store state alone. -/
theorem export_data_time_counterexample :
    export_data "2025-01-01T00:00:00".toList [] [] ≠
      export_data "2025-01-01T00:00:01".toList [] [] := by decide
